import Mathlib

/-!
Verification of the layer library in `cnn/layers.py`.

Numeric values are modelled as rationals (`ℚ`): the Python code computes with
float64, and every property checked here is an exact algebraic identity of the
dataflow, so we embed the arithmetic exactly.

A numpy array of rank r is modelled as a structure holding its shape and a
total function from indices to values; only in-range indices are meaningful,
mirroring numpy where out-of-range access is an error.  Row-major flattening
(`flat`) mirrors numpy's C-order `reshape`/`ravel`.
-/

/-- A rank-1 array: shape `(n0)` plus its entries. -/
structure Tensor1 where
  n0 : Nat
  data : Nat → ℚ

/-- A rank-2 array: shape `(n0, n1)` plus its entries. -/
structure Tensor2 where
  n0 : Nat
  n1 : Nat
  data : Nat → Nat → ℚ

/-- A rank-4 array: shape `(n0, n1, n2, n3)` plus its entries. -/
structure Tensor4 where
  n0 : Nat
  n1 : Nat
  n2 : Nat
  n3 : Nat
  data : Nat → Nat → Nat → Nat → ℚ

/-- Row-major (C-order) flattened view of a rank-2 array, as numpy's `ravel`. -/
def Tensor2.flat (X : Tensor2) : Nat → ℚ :=
  fun n => X.data (n / X.n1) (n % X.n1)

/-- Row-major (C-order) flattened view of a rank-4 array. -/
def Tensor4.flat (X : Tensor4) : Nat → ℚ :=
  fun n => X.data (n / (X.n1 * X.n2 * X.n3)) (n / (X.n2 * X.n3) % X.n1) (n / X.n3 % X.n2) (n % X.n3)

/-- Build a rank-4 array of shape `(d0,d1,d2,d3)` from a flat C-order stream,
as numpy's `reshape` does. -/
def mkT4 (f : Nat → ℚ) (d0 d1 d2 d3 : Nat) : Tensor4 :=
  ⟨d0, d1, d2, d3, fun a b c d => f (((a * d1 + b) * d2 + c) * d3 + d)⟩

/-- `reshape` of a rank-2 array to rank 4. -/
def Tensor2.reshape4 (X : Tensor2) (d0 d1 d2 d3 : Nat) : Tensor4 :=
  mkT4 X.flat d0 d1 d2 d3

/-- `reshape` of a rank-1 array to rank 4. -/
def Tensor1.reshape4 (X : Tensor1) (d0 d1 d2 d3 : Nat) : Tensor4 :=
  mkT4 X.data d0 d1 d2 d3

/-- `reshape` of a rank-4 array to rank 4 (used to fold batch and channel). -/
def Tensor4.reshape44 (X : Tensor4) (d0 d1 d2 d3 : Nat) : Tensor4 :=
  mkT4 X.flat d0 d1 d2 d3

/-- `reshape` of a rank-4 array to rank 2. -/
def Tensor4.reshape2 (X : Tensor4) (d0 d1 : Nat) : Tensor2 :=
  ⟨d0, d1, fun i j => X.flat (i * d1 + j)⟩

/-- `reshape` of a rank-4 array to rank 2 with the leading axis kept,
numpy's `reshape(batch, -1)`. -/
def Tensor4.reshapeRows (X : Tensor4) : Tensor2 :=
  ⟨X.n0, X.n1 * X.n2 * X.n3, fun i j => X.flat (i * (X.n1 * X.n2 * X.n3) + j)⟩

/-- numpy `transpose(3, 0, 1, 2)`. -/
def Tensor4.transpose3012 (X : Tensor4) : Tensor4 :=
  ⟨X.n3, X.n0, X.n1, X.n2, fun a b c d => X.data b c d a⟩

/-- numpy `transpose(2, 3, 0, 1)`. -/
def Tensor4.transpose2301 (X : Tensor4) : Tensor4 :=
  ⟨X.n2, X.n3, X.n0, X.n1, fun a b c d => X.data c d a b⟩

/-- numpy `transpose(1, 2, 3, 0)`. -/
def Tensor4.transpose1230 (X : Tensor4) : Tensor4 :=
  ⟨X.n1, X.n2, X.n3, X.n0, fun a b c d => X.data d a b c⟩

/-- Matrix transpose of a rank-2 array. -/
def Tensor2.transpose (X : Tensor2) : Tensor2 :=
  ⟨X.n1, X.n0, fun i j => X.data j i⟩

/-- Matrix product `A @ B` (contraction over `A`'s second axis). -/
def matmul (A B : Tensor2) : Tensor2 :=
  ⟨A.n0, B.n1, fun i j => ∑ k in Finset.range A.n1, A.data i k * B.data k j⟩

/-- Broadcast-add a row vector over the rows of a matrix (`M + bias`). -/
def addRow (M : Tensor2) (v : Tensor1) : Tensor2 :=
  ⟨M.n0, M.n1, fun i j => M.data i j + v.data j⟩

/-- Broadcast-add a column vector over the columns of a matrix
(`M + bias.reshape((-1, 1))`). -/
def addCol (M : Tensor2) (v : Tensor1) : Tensor2 :=
  ⟨M.n0, M.n1, fun i j => M.data i j + v.data i⟩

/-- Spatial output extent of a sliding window:
`(n + 2*pad - k) / stride + 1` as in `Convolution.forward`. -/
def outSize (n k pad stride : Nat) : Nat :=
  (n + 2 * pad - k) / stride + 1

/-- Symmetric zero padding of the two trailing (spatial) axes of an image
tensor, viewed at padded coordinates. -/
def pad4 (X : Tensor4) (pad : Nat) : Nat → Nat → Nat → Nat → ℚ :=
  fun b c i j =>
    if pad ≤ i ∧ i < X.n2 + pad ∧ pad ≤ j ∧ j < X.n3 + pad then
      X.data b c (i - pad) (j - pad)
    else 0

/-- Modelled from the spec: `img2col_indices` lives in the external `utils.img2cols`
module, which is not part of `src/`.  Per §4.5, the `(batch, channel, H, W)` input
is zero-padded symmetrically by `pad`, every valid window position (row-major over
output height then width, batch innermost) yields one column holding the flattened
`(channel, kh, kw)` patch; the result has shape
`(channel*kh*kw, out_h*out_w*batch)`.  Row `r` decodes to `(c, ki, kj)` with `kj`
fastest; column `k` decodes to `(oh, ow, b)` with `b` fastest. -/
def img2col (X : Tensor4) (kh kw pad stride : Nat) : Tensor2 :=
  ⟨X.n1 * kh * kw, outSize X.n2 kh pad stride * outSize X.n3 kw pad stride * X.n0,
   fun r k =>
     pad4 X pad (k % X.n0) (r / kw / kh)
       ((k / X.n0 / outSize X.n3 kw pad stride) * stride + r / kw % kh)
       ((k / X.n0 % outSize X.n3 kw pad stride) * stride + r % kw)⟩

/-- Modelled from the spec: `col2img_indices` lives in the external `utils.img2cols`
module, which is not part of `src/`.  Per §4.5 it is the exact adjoint of
`img2col`: every column's unflattened patch is scatter-ADDed (overlapping windows
accumulate) into the padded image, and the padding border is then cropped away,
returning a tensor of the given original shape.  The value at unpadded position
`(b, c, i, j)` is therefore the sum, over all windows `(oh, ow)` whose patch
covers padded position `(i+pad, j+pad)`, of the matching column entry. -/
def col2img (cols : Tensor2) (B C H W kh kw pad stride : Nat) : Tensor4 :=
  ⟨B, C, H, W, fun b c i j =>
    ∑ oh in Finset.range (outSize H kh pad stride),
      ∑ ow in Finset.range (outSize W kw pad stride),
        if oh * stride ≤ i + pad ∧ i + pad < oh * stride + kh ∧
           ow * stride ≤ j + pad ∧ j + pad < ow * stride + kw then
          cols.data ((c * kh + (i + pad - oh * stride)) * kw + (j + pad - ow * stride))
            ((oh * outSize W kw pad stride + ow) * B + b)
        else 0⟩

/-- The number of sliding windows along one axis whose extent covers
coordinate `i` (in padded coordinates `i + pad`). -/
def coverCount (outn stride k pad i : Nat) : Nat :=
  ((Finset.range outn).filter
    (fun o => o * stride ≤ i + pad ∧ i + pad < o * stride + k)).card



/-- Substring containment, modelling the Python expression `'weights' in k`
used by `FCLayer.update` and `Convolution.update`. -/
def strContains (s pat : String) : Bool :=
  s.data.tails.any (fun t => pat.data.isPrefixOf t)

/-- The fully-connected layer's state: parameters, their gradient slots, and
the base-class attributes set in `Layer.__init__` (`name`, `training`,
`trainable`). -/
structure FCLayer where
  weights : Tensor2
  bias : Tensor1
  w_grad : Tensor2
  b_grad : Tensor1
  name : String
  trainable : Bool
  training : Bool

/-- `FCLayer.__init__`: weights from the initializer, zero bias and zero
gradient slots; `Layer.__init__` sets `training = True`, then the subclass
sets `trainable = True`. -/
def FCLayer.init (in_features out_features : Nat) (name : String)
    (initw : Nat → Nat → ℚ) : FCLayer where
  weights := ⟨in_features, out_features, initw⟩
  bias := ⟨out_features, fun _ => 0⟩
  w_grad := ⟨in_features, out_features, fun _ _ => 0⟩
  b_grad := ⟨out_features, fun _ => 0⟩
  name := name
  trainable := true
  training := true

/-- `FCLayer.forward`: `inputs @ self.weights + self.bias` (bias broadcast
over the batch axis). -/
def FCLayer.forward (l : FCLayer) (inputs : Tensor2) : Tensor2 :=
  addRow (matmul inputs l.weights) l.bias

/-- `FCLayer.backward`: stores `inputs.T @ in_grads` into `w_grad` and
`np.sum(in_grads, axis=0)` into `b_grad` (overwriting both), and returns
`in_grads @ self.weights.T`. -/
def FCLayer.backward (l : FCLayer) (in_grads inputs : Tensor2) : Tensor2 × FCLayer :=
  (matmul in_grads l.weights.transpose,
   { l with
     w_grad := matmul inputs.transpose in_grads
     b_grad := ⟨in_grads.n1, fun j => ∑ b in Finset.range in_grads.n0, in_grads.data b j⟩ })

/-- `FCLayer.update`: iterates over the supplied mapping in order and assigns
the value to `weights` when the key contains the substring `'weights'`, and
to `bias` otherwise.  A value is a numpy array of either rank; an assignment
whose rank does not match the slot (possible in Python, which would store the
foreign array verbatim) is not representable with ranked tensors and leaves
the slot unchanged here — no claim below depends on that corner. -/
def FCLayer.update (l : FCLayer) (params : List (String × (Tensor2 ⊕ Tensor1))) : FCLayer :=
  params.foldl (fun acc kv =>
    if strContains kv.1 "weights" then
      match kv.2 with
      | Sum.inl w => { acc with weights := w }
      | Sum.inr _ => acc
    else
      match kv.2 with
      | Sum.inl _ => acc
      | Sum.inr b => { acc with bias := b }) l

/-- `Layer.set_mode`, inherited by `FCLayer`. -/
def FCLayer.set_mode (l : FCLayer) (training : Bool) : FCLayer :=
  { l with training := training }

/-- `Layer.set_trainable`, inherited by `FCLayer`. -/
def FCLayer.set_trainable (l : FCLayer) (trainable : Bool) : FCLayer :=
  { l with trainable := trainable }

/-- The example layer of the spec's concrete FC scenario: `in_features = 3`,
`out_features = 2`, weights `[[1,0],[0,1],[1,1]]`, bias `[0,0]`. -/
def fcExample : FCLayer where
  weights := ⟨3, 2, fun i j => ((([[1, 0], [0, 1], [1, 1]] : List (List ℚ)).getD i []).getD j 0)⟩
  bias := ⟨2, fun _ => 0⟩
  w_grad := ⟨3, 2, fun _ _ => 0⟩
  b_grad := ⟨2, fun _ => 0⟩
  name := "fclayer"
  trainable := true
  training := true

/-- The input `[[1, 2, 3]]` of the concrete FC scenario. -/
def fcExampleInput : Tensor2 :=
  ⟨1, 3, fun _ k => (([1, 2, 3] : List ℚ).getD k 0)⟩

/-- The upstream gradient `[[1, 1]]` of the concrete FC scenario. -/
def fcExampleGrad : Tensor2 :=
  ⟨1, 2, fun _ _ => 1⟩



/-- The ReLU layer: no parameters, only the base-class attributes. -/
structure ReLU where
  name : String
  trainable : Bool
  training : Bool

/-- `ReLU.__init__`: the base class sets `training = True`, `trainable = False`. -/
def ReLU.init (name : String) : ReLU :=
  ⟨name, false, true⟩

/-- `ReLU.forward`: elementwise `np.maximum(0, inputs)`. -/
def ReLU.forward (l : ReLU) (inputs : Tensor4) : Tensor4 :=
  ⟨inputs.n0, inputs.n1, inputs.n2, inputs.n3,
   fun b c i j => max 0 (inputs.data b c i j)⟩

/-- `ReLU.backward`: elementwise `(inputs >= 0) * in_grads`, the boolean
factor acting as a 0/1 indicator. -/
def ReLU.backward (l : ReLU) (in_grads inputs : Tensor4) : Tensor4 :=
  ⟨inputs.n0, inputs.n1, inputs.n2, inputs.n3,
   fun b c i j => (if 0 ≤ inputs.data b c i j then (1 : ℚ) else 0) * in_grads.data b c i j⟩

/-- `Layer.update`, inherited by `ReLU`: a no-op. -/
def ReLU.update {α : Type} (l : ReLU) (params : List (String × α)) : ReLU :=
  l

/-- `Layer.set_mode`, inherited by `ReLU`. -/
def ReLU.set_mode (l : ReLU) (training : Bool) : ReLU :=
  { l with training := training }

/-- `Layer.set_trainable`, inherited by `ReLU`. -/
def ReLU.set_trainable (l : ReLU) (trainable : Bool) : ReLU :=
  { l with trainable := trainable }

/-- The Flatten layer: no parameters, only the base-class attributes. -/
structure Flatten where
  name : String
  trainable : Bool
  training : Bool

/-- `Flatten.__init__` (its `seed` parameter is accepted and unused). -/
def Flatten.init (name : String) (seed : Option Nat) : Flatten :=
  ⟨name, false, true⟩

/-- `Flatten.forward`: `inputs.copy().reshape(batch, -1)`. -/
def Flatten.forward (l : Flatten) (inputs : Tensor4) : Tensor2 :=
  inputs.reshapeRows

/-- `Flatten.backward`: `in_grads.copy().reshape(inputs.shape)`. -/
def Flatten.backward (l : Flatten) (in_grads : Tensor2) (inputs : Tensor4) : Tensor4 :=
  in_grads.reshape4 inputs.n0 inputs.n1 inputs.n2 inputs.n3

/-- `Layer.update`, inherited by `Flatten`: a no-op. -/
def Flatten.update {α : Type} (l : Flatten) (params : List (String × α)) : Flatten :=
  l

/-- `Layer.set_mode`, inherited by `Flatten`. -/
def Flatten.set_mode (l : Flatten) (training : Bool) : Flatten :=
  { l with training := training }

/-- `Layer.set_trainable`, inherited by `Flatten`. -/
def Flatten.set_trainable (l : Flatten) (trainable : Bool) : Flatten :=
  { l with trainable := trainable }



/-- The convolution layer's state: the hyper-parameters of `conv_params`,
parameters, gradient slots, and the base-class attributes. -/
structure Convolution where
  kernel_h : Nat
  kernel_w : Nat
  pad : Nat
  stride : Nat
  in_channel : Nat
  out_channel : Nat
  weights : Tensor4
  bias : Tensor1
  w_grad : Tensor4
  b_grad : Tensor1
  name : String
  trainable : Bool
  training : Bool

/-- `Convolution.__init__`: hyper-parameters from `conv_params`, weights of
shape `(out_channel, in_channel, kernel_h, kernel_w)` from the initializer,
zero bias and zero gradient slots; `trainable = True`, `training = True`. -/
def Convolution.init (kernel_h kernel_w pad stride in_channel out_channel : Nat)
    (initw : Nat → Nat → Nat → Nat → ℚ) (name : String) : Convolution where
  kernel_h := kernel_h
  kernel_w := kernel_w
  pad := pad
  stride := stride
  in_channel := in_channel
  out_channel := out_channel
  weights := ⟨out_channel, in_channel, kernel_h, kernel_w, initw⟩
  bias := ⟨out_channel, fun _ => 0⟩
  w_grad := ⟨out_channel, in_channel, kernel_h, kernel_w, fun _ _ _ _ => 0⟩
  b_grad := ⟨out_channel, fun _ => 0⟩
  name := name
  trainable := true
  training := true

/-- `Convolution.forward`: column-transform the input, reshape the weights to
`(out_channel, in_channel*kernel_h*kernel_w)`, multiply, add the bias per
output channel (`bias.reshape((-1, 1))` broadcast), then
`reshape(out_channel, out_height, out_width, batch).transpose(3, 0, 1, 2)`. -/
def Convolution.forward (l : Convolution) (inputs : Tensor4) : Tensor4 :=
  ((addCol
      (matmul (l.weights.reshape2 l.out_channel (l.in_channel * l.kernel_h * l.kernel_w))
        (img2col inputs l.kernel_h l.kernel_w l.pad l.stride))
      l.bias).reshape4 l.out_channel
        (outSize inputs.n2 l.kernel_h l.pad l.stride)
        (outSize inputs.n3 l.kernel_w l.pad l.stride)
        inputs.n0).transpose3012

/-- `Convolution.backward`: bias gradient `np.sum(in_grads, axis=(0, 2, 3))`;
`in_grads.transpose(1, 2, 3, 0).reshape(out_channel, -1)` times the transposed
input columns gives the weight gradient (reshaped to the weight shape);
`weights_rows.T @ in_grads_rows` scattered back through `col2img` gives the
input gradient.  Both gradient slots are overwritten. -/
def Convolution.backward (l : Convolution) (in_grads inputs : Tensor4) :
    Tensor4 × Convolution :=
  (col2img
      (matmul (l.weights.reshape2 l.out_channel (l.in_channel * l.kernel_h * l.kernel_w)).transpose
        ((in_grads.transpose1230).reshape2 l.out_channel (in_grads.n2 * in_grads.n3 * in_grads.n0)))
      inputs.n0 inputs.n1 inputs.n2 inputs.n3 l.kernel_h l.kernel_w l.pad l.stride,
   { l with
     w_grad := (matmul
        ((in_grads.transpose1230).reshape2 l.out_channel (in_grads.n2 * in_grads.n3 * in_grads.n0))
        (img2col inputs l.kernel_h l.kernel_w l.pad l.stride).transpose).reshape4
          l.out_channel l.in_channel l.kernel_h l.kernel_w
     b_grad := ⟨l.out_channel, fun oc =>
        ∑ b in Finset.range in_grads.n0, ∑ i in Finset.range in_grads.n2,
          ∑ j in Finset.range in_grads.n3, in_grads.data b oc i j⟩ })

/-- `Convolution.update`: same loop as `FCLayer.update` — assigns to `weights`
when the key contains the substring `'weights'`, else to `bias`.  As for
`FCLayer.update`, an assignment whose rank does not match the slot is not
representable with ranked tensors and leaves the slot unchanged here. -/
def Convolution.update (l : Convolution) (params : List (String × (Tensor4 ⊕ Tensor1))) :
    Convolution :=
  params.foldl (fun acc kv =>
    if strContains kv.1 "weights" then
      match kv.2 with
      | Sum.inl w => { acc with weights := w }
      | Sum.inr _ => acc
    else
      match kv.2 with
      | Sum.inl _ => acc
      | Sum.inr b => { acc with bias := b }) l

/-- `Layer.set_mode`, inherited by `Convolution`. -/
def Convolution.set_mode (l : Convolution) (training : Bool) : Convolution :=
  { l with training := training }

/-- `Layer.set_trainable`, inherited by `Convolution`. -/
def Convolution.set_trainable (l : Convolution) (trainable : Bool) : Convolution :=
  { l with trainable := trainable }



/-- A concrete 1-in-1-out-channel convolution with a 1×1 kernel of weight 2,
stride 1, no padding. -/
def convExample : Convolution :=
  Convolution.init 1 1 0 1 1 1 (fun _ _ _ _ => 2) "conv"

/-- A concrete 1×1×1×1 input of value 3. -/
def convExampleInput : Tensor4 :=
  ⟨1, 1, 1, 1, fun _ _ _ _ => 3⟩



/-- Modelled from the spec: `maxpool` lives in the external `utils.tools`
module, absent from `src/`.  Per §4.6, each column is reduced to its maximum;
`colMax` folds `max` over the column entries starting—as numpy's reduction
does—from the first entry. -/
def colMax (cols : Tensor2) (k : Nat) : ℚ :=
  ((List.range cols.n0).map (fun r => cols.data r k)).foldl max (cols.data 0 k)

/-- Modelled from the spec: the stored per-column index of the maximal
element, first occurrence on ties (§4.6). -/
def colArgmax (cols : Tensor2) (k : Nat) : Nat :=
  ((List.range cols.n0).find? (fun r => decide (cols.data r k = colMax cols k))).getD 0

/-- Modelled from the spec: `maxpool` — per-column maximum plus the stored
index state consumed by the backward pass. -/
def maxpool (cols : Tensor2) : Tensor1 × (Nat → Nat) :=
  (⟨cols.n1, fun k => colMax cols k⟩, fun k => colArgmax cols k)

/-- Modelled from the spec: `avgpool` — per-column mean; no index state is
needed (§4.6 stores nothing beyond the implicit uniform weights), modelled by
a constant-zero index map. -/
def avgpool (cols : Tensor2) : Tensor1 × (Nat → Nat) :=
  (⟨cols.n1, fun k => (∑ r in Finset.range cols.n0, cols.data r k) / (cols.n0 : ℚ)⟩,
   fun _ => 0)

/-- Modelled from the spec: `dmaxpool` scatters each upstream gradient value
into the stored max-index position of its column of the zero-initialised
column matrix (§4.6). -/
def dmaxpool (zero_cols : Tensor2) (g : Nat → ℚ) (idx : Nat → Nat) : Tensor2 :=
  ⟨zero_cols.n0, zero_cols.n1, fun r k => if r = idx k then g k else zero_cols.data r k⟩

/-- Modelled from the spec: `davgpool` broadcasts each upstream gradient value
across every position of its column (§4.6; §9 records that whether the source
divides by the window size is an open question — no claim below depends on
this scaling). -/
def davgpool (zero_cols : Tensor2) (g : Nat → ℚ) (idx : Nat → Nat) : Tensor2 :=
  ⟨zero_cols.n0, zero_cols.n1, fun r k => g k⟩

/-- The pooling layer's state: the `pool_params` hyper-parameters, the stored
max-index state (`None` before the first forward call, modelled as the
constant-zero map), and the base-class attributes. -/
structure Pooling where
  pool_type : String
  pool_height : Nat
  pool_width : Nat
  stride : Nat
  pad : Nat
  max_idx : Nat → Nat
  name : String
  trainable : Bool
  training : Bool

/-- `Pooling.__init__`. -/
def Pooling.init (pool_type : String) (pool_height pool_width stride pad : Nat)
    (name : String) : Pooling :=
  ⟨pool_type, pool_height, pool_width, stride, pad, fun _ => 0, name, false, true⟩

/-- The body shared by both branches of `Pooling.forward` once `pool_func`
has been selected: `out = (in - pool)//stride + 1`; reshape the input to
`(batch*in_channel, 1, H, W)`; column-transform with the layer's pad and
stride; reduce each column with `pool_func`, storing its index state into
`max_idx`; `reshape(out_height, out_width, batch, in_channel)` and
`transpose(2, 3, 0, 1)`. -/
def Pooling.forwardWith (l : Pooling) (inputs : Tensor4)
    (pool_func : Tensor2 → Tensor1 × (Nat → Nat)) : Tensor4 × Pooling :=
  (((pool_func (img2col (inputs.reshape44 (inputs.n0 * inputs.n1) 1 inputs.n2 inputs.n3)
        l.pool_height l.pool_width l.pad l.stride)).1.reshape4
      ((inputs.n2 - l.pool_height) / l.stride + 1)
      ((inputs.n3 - l.pool_width) / l.stride + 1)
      inputs.n0 inputs.n1).transpose2301,
   { l with
     max_idx := (pool_func (img2col (inputs.reshape44 (inputs.n0 * inputs.n1) 1 inputs.n2 inputs.n3)
        l.pool_height l.pool_width l.pad l.stride)).2 })

/-- `Pooling.forward`: dispatch on `pool_type` (`'max'` → `maxpool`,
`'avg'` → `avgpool`, otherwise `raise ValueError('Pool type not supported')`),
then run the shared body. -/
def Pooling.forward (l : Pooling) (inputs : Tensor4) : Except String (Tensor4 × Pooling) :=
  if l.pool_type = "max" then Except.ok (l.forwardWith inputs maxpool)
  else if l.pool_type = "avg" then Except.ok (l.forwardWith inputs avgpool)
  else Except.error "Pool type not supported"

/-- The body shared by both branches of `Pooling.backward` once `dpool_func`
has been selected: rebuild the zero column matrix shaped like forward's,
ravel the transposed upstream gradient, scatter with `dpool_func`, apply
`col2img` against the `(batch*in_channel, 1, H, W)` shape and reshape back to
`inputs.shape`. -/
def Pooling.backwardWith (l : Pooling) (in_grads inputs : Tensor4)
    (dpool_func : Tensor2 → (Nat → ℚ) → (Nat → Nat) → Tensor2) : Tensor4 :=
  ((col2img
      (dpool_func
        ⟨(img2col (inputs.reshape44 (inputs.n0 * inputs.n1) 1 inputs.n2 inputs.n3)
            l.pool_height l.pool_width l.pad l.stride).n0,
          (img2col (inputs.reshape44 (inputs.n0 * inputs.n1) 1 inputs.n2 inputs.n3)
            l.pool_height l.pool_width l.pad l.stride).n1,
          fun _ _ => 0⟩
        (in_grads.transpose2301).flat l.max_idx)
      (inputs.n0 * inputs.n1) 1 inputs.n2 inputs.n3
      l.pool_height l.pool_width l.pad l.stride).reshape44
    inputs.n0 inputs.n1 inputs.n2 inputs.n3)

/-- `Pooling.backward`: dispatch on `pool_type` (`'max'` → `dmaxpool`,
`'avg'` → `davgpool`, otherwise
`raise ValueError('Pool type is not supported')`), then run the shared body. -/
def Pooling.backward (l : Pooling) (in_grads inputs : Tensor4) : Except String Tensor4 :=
  if l.pool_type = "max" then Except.ok (l.backwardWith in_grads inputs dmaxpool)
  else if l.pool_type = "avg" then Except.ok (l.backwardWith in_grads inputs davgpool)
  else Except.error "Pool type is not supported"

/-- `Layer.update`, inherited by `Pooling`: a no-op. -/
def Pooling.update {α : Type} (l : Pooling) (params : List (String × α)) : Pooling :=
  l

/-- `Layer.set_mode`, inherited by `Pooling`. -/
def Pooling.set_mode (l : Pooling) (training : Bool) : Pooling :=
  { l with training := training }

/-- `Layer.set_trainable`, inherited by `Pooling`. -/
def Pooling.set_trainable (l : Pooling) (trainable : Bool) : Pooling :=
  { l with trainable := trainable }



/-- Modelled from the spec: numpy's global pseudo-random generator, an
external collaborator.  Only what the claims need is modelled: `np.random.seed`
resets the state to a function of the seed, and each Bernoulli draw is a
deterministic function of the state and the element's flat index.  The actual
distribution lives in numpy. -/
structure NpRandom where
  state : Nat

/-- Modelled from the spec: `np.random.seed(s)`. -/
def NpRandom.seed (s : Nat) : NpRandom :=
  ⟨s⟩

/-- Modelled from the spec: one Bernoulli draw (`np.random.binomial(1, p)`)
for the element at flat index `n`; an arbitrary but fixed deterministic
function of state and index stands in for the sampler. -/
def NpRandom.bern (g : NpRandom) (n : Nat) : Bool :=
  (g.state + n) % 2 == 0

/-- Modelled from the spec: sampling advances the generator state. -/
def NpRandom.next (g : NpRandom) : NpRandom :=
  ⟨g.state + 1⟩

/-- The dropout layer's state: the drop ratio, the stored mask (`None`
before the first forward call, modelled as an empty tensor), the optional
seed, and the base-class attributes. -/
structure Dropout where
  ratio : ℚ
  mask : Tensor2
  seed : Option Nat
  name : String
  trainable : Bool
  training : Bool

/-- `Dropout.__init__`. -/
def Dropout.init (ratio : ℚ) (name : String) (seed : Option Nat) : Dropout :=
  ⟨ratio, ⟨0, 0, fun _ _ => 0⟩, seed, name, false, true⟩

/-- `Dropout.forward`: in training mode, re-seed the global generator when a
seed is configured, draw a Bernoulli mask scaled by `1/(1-ratio)`, store it,
and multiply elementwise; in inference mode, store an all-ones mask and pass
the input through.  The generator is threaded explicitly (numpy's global
state). -/
def Dropout.forward (l : Dropout) (g : NpRandom) (inputs : Tensor2) :
    Tensor2 × Dropout × NpRandom :=
  if l.training then
    (⟨inputs.n0, inputs.n1, fun i j =>
        inputs.data i j
          * ((if (match l.seed with
                  | some s => NpRandom.seed s
                  | none => g).bern (i * inputs.n1 + j) then (1 : ℚ) else 0)
              / (1 - l.ratio))⟩,
     { l with mask := ⟨inputs.n0, inputs.n1, fun i j =>
        (if (match l.seed with
              | some s => NpRandom.seed s
              | none => g).bern (i * inputs.n1 + j) then (1 : ℚ) else 0)
          / (1 - l.ratio)⟩ },
     (match l.seed with
      | some s => NpRandom.seed s
      | none => g).next)
  else
    (⟨inputs.n0, inputs.n1, fun i j => inputs.data i j⟩,
     { l with mask := ⟨inputs.n0, inputs.n1, fun _ _ => 1⟩ }, g)

/-- `Dropout.backward`: multiply the upstream gradient elementwise by the
stored mask. -/
def Dropout.backward (l : Dropout) (in_grads inputs : Tensor2) : Tensor2 :=
  ⟨in_grads.n0, in_grads.n1, fun i j => in_grads.data i j * l.mask.data i j⟩

/-- `Layer.update`, inherited by `Dropout`: a no-op. -/
def Dropout.update {α : Type} (l : Dropout) (params : List (String × α)) : Dropout :=
  l

/-- `Layer.set_mode`, inherited by `Dropout`. -/
def Dropout.set_mode (l : Dropout) (training : Bool) : Dropout :=
  { l with training := training }

/-- `Layer.set_trainable`, inherited by `Dropout`. -/
def Dropout.set_trainable (l : Dropout) (trainable : Bool) : Dropout :=
  { l with trainable := trainable }



/-- A plain FC layer used as a concrete update target. -/
def fcPlain : FCLayer :=
  FCLayer.init 3 2 "fclayer" (fun _ _ => 0)


-- === END OF DEFINITIONS (claims C2..C10 definitions are appended above this line) ===

section EncodeDecode

/-- Quotient of a row-major pair encoding. -/
theorem encode_div (a r d : Nat) (h : r < d) : (a * d + r) / d = a := by
  rw [Nat.mul_comm a d, Nat.mul_add_div (by omega), Nat.div_eq_of_lt h, Nat.add_zero]

/-- Remainder of a row-major pair encoding. -/
theorem encode_mod (a r d : Nat) (h : r < d) : (a * d + r) % d = r := by
  rw [Nat.mul_comm a d, Nat.mul_add_mod, Nat.mod_eq_of_lt h]

/-- A row-major pair encoding is bounded by the product of the extents. -/
theorem encode_lt (i j m n : Nat) (hi : i < m) (hj : j < n) : i * n + j < m * n := by
  calc i * n + j < i * n + n := by omega
  _ = (i + 1) * n := by ring
  _ ≤ m * n := Nat.mul_le_mul_right n hi

end EncodeDecode

section SumHelpers

/-- Splitting a sum over an interval of natural numbers. -/
theorem sum_range_add (f : Nat → ℚ) (m n : Nat) :
    ∑ r in Finset.range (m + n), f r =
      (∑ r in Finset.range m, f r) + ∑ j in Finset.range n, f (m + j) := by
  induction n with
  | zero => simp
  | succ n ih =>
    rw [← Nat.add_assoc, Finset.sum_range_succ, ih, Finset.sum_range_succ]
    ring

/-- A sum over a flattened index range splits into a double sum over the
row-major encoding. -/
theorem sum_range_mul (f : Nat → ℚ) (m n : Nat) :
    ∑ r in Finset.range (m * n), f r =
      ∑ i in Finset.range m, ∑ j in Finset.range n, f (i * n + j) := by
  induction m with
  | zero => simp
  | succ m ih =>
    rw [Nat.succ_mul, sum_range_add, ih, Finset.sum_range_succ]

/-- A sum of an indicator-guarded constant counts the matching elements. -/
theorem sum_ite_count (s : Finset Nat) (p : Nat → Prop) [DecidablePred p] (v : ℚ) :
    (∑ x in s, if p x then v else 0) = ((s.filter p).card : ℚ) * v := by
  rw [← Finset.sum_filter, Finset.sum_const, nsmul_eq_mul]

end SumHelpers

section FlatEncode

/-- Reading a flattened rank-4 array back at an encoded index recovers the entry. -/
theorem Tensor4.flat_encode (X : Tensor4) (b c i j : Nat)
    (hc : c < X.n1) (hi : i < X.n2) (hj : j < X.n3) :
    X.flat (((b * X.n1 + c) * X.n2 + i) * X.n3 + j) = X.data b c i j := by
  unfold Tensor4.flat
  have h1 : (c * X.n2 + i) * X.n3 + j < X.n1 * X.n2 * X.n3 :=
    encode_lt (c * X.n2 + i) j (X.n1 * X.n2) X.n3 (encode_lt c i X.n1 X.n2 hc hi) hj
  have h2 : i * X.n3 + j < X.n2 * X.n3 := encode_lt i j X.n2 X.n3 hi hj
  have d0 : (((b * X.n1 + c) * X.n2 + i) * X.n3 + j) / (X.n1 * X.n2 * X.n3) = b := by
    rw [show ((b * X.n1 + c) * X.n2 + i) * X.n3 + j
        = b * (X.n1 * X.n2 * X.n3) + ((c * X.n2 + i) * X.n3 + j) by ring]
    exact encode_div _ _ _ h1
  have d1 : (((b * X.n1 + c) * X.n2 + i) * X.n3 + j) / (X.n2 * X.n3) % X.n1 = c := by
    rw [show ((b * X.n1 + c) * X.n2 + i) * X.n3 + j
        = (b * X.n1 + c) * (X.n2 * X.n3) + (i * X.n3 + j) by ring]
    rw [encode_div _ _ _ h2]
    exact encode_mod b c X.n1 hc
  have d2 : (((b * X.n1 + c) * X.n2 + i) * X.n3 + j) / X.n3 % X.n2 = i := by
    rw [encode_div _ _ _ hj]
    exact encode_mod _ _ _ hi
  have d3 : (((b * X.n1 + c) * X.n2 + i) * X.n3 + j) % X.n3 = j :=
    encode_mod _ _ _ hj
  rw [d0, d1, d2, d3]

end FlatEncode

section ColumnTransformRoundTrip

/-- Each summand of the round trip collapses to an indicator of window coverage
times the original entry. -/
theorem roundtrip_summand (X : Tensor4) (kh kw pad stride b c i j oh ow : Nat)
    (hb : b < X.n0) (hi : i < X.n2) (hj : j < X.n3)
    (how : ow < outSize X.n3 kw pad stride) :
    (if oh * stride ≤ i + pad ∧ i + pad < oh * stride + kh ∧
        ow * stride ≤ j + pad ∧ j + pad < ow * stride + kw then
      (img2col X kh kw pad stride).data
        ((c * kh + (i + pad - oh * stride)) * kw + (j + pad - ow * stride))
        ((oh * outSize X.n3 kw pad stride + ow) * X.n0 + b)
    else 0)
    = if oh * stride ≤ i + pad ∧ i + pad < oh * stride + kh ∧
        ow * stride ≤ j + pad ∧ j + pad < ow * stride + kw then
        X.data b c i j else 0 := by
  split_ifs with h1
  · obtain ⟨ha1, ha2, ha3, ha4⟩ := h1
    simp only [img2col]
    have hki : i + pad - oh * stride < kh := by omega
    have hkj : j + pad - ow * stride < kw := by omega
    rw [encode_mod _ _ _ hkj, encode_div _ _ _ hkj]
    rw [encode_mod _ _ _ hb, encode_div _ _ _ hb]
    rw [encode_mod _ _ _ hki, encode_div _ _ _ hki]
    rw [encode_mod _ _ _ how, encode_div _ _ _ how]
    rw [show oh * stride + (i + pad - oh * stride) = i + pad from by omega]
    rw [show ow * stride + (j + pad - ow * stride) = j + pad from by omega]
    simp only [pad4]
    rw [if_pos (by omega : pad ≤ i + pad ∧ i + pad < X.n2 + pad ∧
        pad ≤ j + pad ∧ j + pad < X.n3 + pad)]
    rw [show i + pad - pad = i from by omega, show j + pad - pad = j from by omega]
  · rfl

/-- The round trip at any in-range position is the number of covering windows
(per axis) times the original entry. -/
theorem roundtrip_coverage (X : Tensor4) (kh kw pad stride b c i j : Nat)
    (hb : b < X.n0) (hi : i < X.n2) (hj : j < X.n3) :
    (col2img (img2col X kh kw pad stride) X.n0 X.n1 X.n2 X.n3 kh kw pad stride).data b c i j
      = (coverCount (outSize X.n2 kh pad stride) stride kh pad i : ℚ)
        * ((coverCount (outSize X.n3 kw pad stride) stride kw pad j : ℚ)
        * X.data b c i j) := by
  simp only [col2img]
  rw [Finset.sum_congr rfl (fun oh _ => Finset.sum_congr rfl
    (fun ow how => roundtrip_summand X kh kw pad stride b c i j oh ow hb hi hj
      (Finset.mem_range.mp how)))]
  have inner : ∀ oh ∈ Finset.range (outSize X.n2 kh pad stride),
      (∑ ow in Finset.range (outSize X.n3 kw pad stride),
        if oh * stride ≤ i + pad ∧ i + pad < oh * stride + kh ∧
          ow * stride ≤ j + pad ∧ j + pad < ow * stride + kw then
          X.data b c i j else 0)
      = if oh * stride ≤ i + pad ∧ i + pad < oh * stride + kh then
          (coverCount (outSize X.n3 kw pad stride) stride kw pad j : ℚ) * X.data b c i j
        else 0 := by
    intro oh _
    by_cases hph : oh * stride ≤ i + pad ∧ i + pad < oh * stride + kh
    · rw [if_pos hph]
      have e : ∀ ow : Nat,
          (if oh * stride ≤ i + pad ∧ i + pad < oh * stride + kh ∧
            ow * stride ≤ j + pad ∧ j + pad < ow * stride + kw then
            X.data b c i j else 0)
          = if ow * stride ≤ j + pad ∧ j + pad < ow * stride + kw then
              X.data b c i j else 0 := by
        intro ow
        by_cases hw : ow * stride ≤ j + pad ∧ j + pad < ow * stride + kw
        · rw [if_pos ⟨hph.1, hph.2, hw.1, hw.2⟩, if_pos hw]
        · rw [if_neg (fun hf => hw ⟨hf.2.2.1, hf.2.2.2⟩), if_neg hw]
      rw [Finset.sum_congr rfl (fun ow _ => e ow), sum_ite_count]
      rfl
    · rw [if_neg hph]
      have e0 : ∀ ow : Nat,
          (if oh * stride ≤ i + pad ∧ i + pad < oh * stride + kh ∧
            ow * stride ≤ j + pad ∧ j + pad < ow * stride + kw then
            X.data b c i j else 0) = 0 :=
        fun ow => if_neg (fun hf => hph ⟨hf.1, hf.2.1⟩)
      rw [Finset.sum_congr rfl (fun ow _ => e0 ow)]
      simp
  rw [Finset.sum_congr rfl inner, sum_ite_count]
  rfl

end ColumnTransformRoundTrip

/-- C1: For every image tensor and valid window parameters, the round trip
`col2img (img2col X)` equals, at every in-range position, the number of
sliding windows covering that position (once per axis) times the original
entry; in particular it equals `X` at positions covered by exactly one
window.  (The further claim that stride ≥ kernel size alone forces the round
trip to be the exact identity is refuted by `c1_roundtrip_counterexample`:
positions covered by no window come back as zero.) -/
theorem c1_col2img_img2col_roundtrip (X : Tensor4) (kh kw pad stride b c i j : Nat)
    (hb : b < X.n0) (hi : i < X.n2) (hj : j < X.n3) :
    (col2img (img2col X kh kw pad stride) X.n0 X.n1 X.n2 X.n3 kh kw pad stride).data b c i j
      = (coverCount (outSize X.n2 kh pad stride) stride kh pad i : ℚ)
        * ((coverCount (outSize X.n3 kw pad stride) stride kw pad j : ℚ) * X.data b c i j)
    ∧ (coverCount (outSize X.n2 kh pad stride) stride kh pad i = 1 →
       coverCount (outSize X.n3 kw pad stride) stride kw pad j = 1 →
       (col2img (img2col X kh kw pad stride) X.n0 X.n1 X.n2 X.n3 kh kw pad stride).data b c i j
         = X.data b c i j) := by
  have main := roundtrip_coverage X kh kw pad stride b c i j hb hi hj
  refine ⟨main, fun h1 h2 => ?_⟩
  rw [main, h1, h2]
  norm_num

/-- C1 counterexample: a 1×3 image with a 1×1 kernel and stride 2 has
stride ≥ kernel size, yet the round trip is not the identity — the middle
pixel is covered by no window and comes back as 0 instead of 2. -/
theorem c1_roundtrip_counterexample :
    2 ≥ 1 ∧
    ¬ ((col2img (img2col (Tensor4.mk 1 1 1 3 (fun _ _ _ j => (j : ℚ) + 1)) 1 1 0 2)
        1 1 1 3 1 1 0 2).data 0 0 0 1
      = (Tensor4.mk 1 1 1 3 (fun _ _ _ j => (j : ℚ) + 1)).data 0 0 0 1) := by
  refine ⟨by norm_num, ?_⟩
  norm_num [col2img, img2col, pad4, outSize, Finset.sum_range_succ]

/-- C1 witness: the round-trip coverage theorem instantiated on a concrete
1×1×1×1 tensor with a 1×1 kernel, stride 1, no padding. -/
theorem c1_roundtrip_witness :
    (col2img (img2col (Tensor4.mk 1 1 1 1 (fun _ _ _ _ => (3 : ℚ))) 1 1 0 1)
      1 1 1 1 1 1 0 1).data 0 0 0 0 = 3 :=
  (c1_col2img_img2col_roundtrip (Tensor4.mk 1 1 1 1 (fun _ _ _ _ => (3 : ℚ)))
    1 1 0 1 0 0 0 0 (by decide) (by decide) (by decide)).2 (by decide) (by decide)

/-- C2: FCLayer.forward returns `inputs · weights + bias` with the bias
broadcast over the batch; backward returns `in_grads · weightsᵗ` and
overwrites (independently of the previous gradient values) the stored weight
gradient with `inputsᵗ · in_grads` and the stored bias gradient with the sum
of `in_grads` over the batch axis.  On the concrete scenario (weights
`[[1,0],[0,1],[1,1]]`, bias `[0,0]`, input `[[1,2,3]]`, upstream gradient
`[[1,1]]`) this gives output `[[4,5]]`, stored `w_grad = [[1,1],[2,2],[3,3]]`,
`b_grad = [1,1]`, and returned input gradient `[[1,1,2]]`. -/
theorem c2_fclayer_forward_backward :
    (∀ (l : FCLayer) (inputs : Tensor2) (b j : Nat),
      (l.forward inputs).n0 = inputs.n0 ∧
      (l.forward inputs).n1 = l.weights.n1 ∧
      (l.forward inputs).data b j
        = (∑ k in Finset.range inputs.n1, inputs.data b k * l.weights.data k j)
          + l.bias.data j)
    ∧ (∀ (l : FCLayer) (in_grads inputs : Tensor2) (b i j : Nat),
      ((l.backward in_grads inputs).1).data b i
        = ∑ k in Finset.range in_grads.n1, in_grads.data b k * l.weights.data i k
      ∧ ((l.backward in_grads inputs).2).w_grad.data i j
        = ∑ b2 in Finset.range inputs.n0, inputs.data b2 i * in_grads.data b2 j
      ∧ ((l.backward in_grads inputs).2).b_grad.data j
        = ∑ b2 in Finset.range in_grads.n0, in_grads.data b2 j)
    ∧ ((fcExample.forward fcExampleInput).data 0 0 = 4
      ∧ (fcExample.forward fcExampleInput).data 0 1 = 5)
    ∧ (((fcExample.backward fcExampleGrad fcExampleInput).2).w_grad.data 0 0 = 1
      ∧ ((fcExample.backward fcExampleGrad fcExampleInput).2).w_grad.data 0 1 = 1
      ∧ ((fcExample.backward fcExampleGrad fcExampleInput).2).w_grad.data 1 0 = 2
      ∧ ((fcExample.backward fcExampleGrad fcExampleInput).2).w_grad.data 1 1 = 2
      ∧ ((fcExample.backward fcExampleGrad fcExampleInput).2).w_grad.data 2 0 = 3
      ∧ ((fcExample.backward fcExampleGrad fcExampleInput).2).w_grad.data 2 1 = 3)
    ∧ (((fcExample.backward fcExampleGrad fcExampleInput).2).b_grad.data 0 = 1
      ∧ ((fcExample.backward fcExampleGrad fcExampleInput).2).b_grad.data 1 = 1)
    ∧ (((fcExample.backward fcExampleGrad fcExampleInput).1).data 0 0 = 1
      ∧ ((fcExample.backward fcExampleGrad fcExampleInput).1).data 0 1 = 1
      ∧ ((fcExample.backward fcExampleGrad fcExampleInput).1).data 0 2 = 2) := by
  refine ⟨fun l inputs b j => ⟨rfl, rfl, rfl⟩,
          fun l in_grads inputs b i j => ⟨rfl, rfl, rfl⟩, ?_, ?_, ?_, ?_⟩ <;>
    norm_num [FCLayer.forward, FCLayer.backward, matmul, addRow, Tensor2.transpose,
      fcExample, fcExampleInput, fcExampleGrad, Finset.sum_range_succ, List.getD]

/-- C4: ReLU.forward is elementwise `max(0, x)`; ReLU.backward equals
`in_grads` multiplied elementwise by the indicator `(inputs ≥ 0)`, hence
equals `in_grads` where `inputs > 0`, equals `0` where `inputs < 0`, and
routes the gradient through (returns `in_grads`) where `inputs = 0`. -/
theorem c4_relu_forward_backward (l : ReLU) (in_grads inputs : Tensor4) (b c i j : Nat) :
    (l.forward inputs).data b c i j = max 0 (inputs.data b c i j)
    ∧ (l.backward in_grads inputs).data b c i j
        = (if 0 ≤ inputs.data b c i j then (1 : ℚ) else 0) * in_grads.data b c i j
    ∧ (0 < inputs.data b c i j →
        (l.backward in_grads inputs).data b c i j = in_grads.data b c i j)
    ∧ (inputs.data b c i j < 0 →
        (l.backward in_grads inputs).data b c i j = 0)
    ∧ (inputs.data b c i j = 0 →
        (l.backward in_grads inputs).data b c i j = in_grads.data b c i j) := by
  refine ⟨rfl, rfl, fun h => ?_, fun h => ?_, fun h => ?_⟩
  · simp only [ReLU.backward]
    rw [if_pos (le_of_lt h), one_mul]
  · simp only [ReLU.backward]
    rw [if_neg (not_le.mpr h), zero_mul]
  · simp only [ReLU.backward]
    rw [if_pos (le_of_eq h.symm), one_mul]

/-- C4 witness: the ReLU theorem applied to concrete tensors, routing the
gradient through at a strictly positive input entry. -/
theorem c4_relu_witness :
    (0 : ℚ) < (Tensor4.mk 1 1 1 1 (fun _ _ _ _ => 2)).data 0 0 0 0
    ∧ ((ReLU.init "relu").backward (Tensor4.mk 1 1 1 1 (fun _ _ _ _ => 5))
        (Tensor4.mk 1 1 1 1 (fun _ _ _ _ => 2))).data 0 0 0 0
      = (Tensor4.mk 1 1 1 1 (fun _ _ _ _ => 5)).data 0 0 0 0 :=
  ⟨by norm_num,
   (c4_relu_forward_backward (ReLU.init "relu") (Tensor4.mk 1 1 1 1 (fun _ _ _ _ => 5))
     (Tensor4.mk 1 1 1 1 (fun _ _ _ _ => 2)) 0 0 0 0).2.2.1 (by norm_num)⟩

/-- C7: Flatten.forward maps a `(batch, channel, H, W)` tensor to shape
`(batch, channel*H*W)` and `Flatten.backward (Flatten.forward X) X`
reconstructs `X` exactly, in shape and in every in-range entry. -/
theorem c7_flatten_roundtrip (l : Flatten) (X : Tensor4) (b c i j : Nat)
    (hc : c < X.n1) (hi : i < X.n2) (hj : j < X.n3) :
    (l.forward X).n0 = X.n0
    ∧ (l.forward X).n1 = X.n1 * X.n2 * X.n3
    ∧ (l.backward (l.forward X) X).n0 = X.n0
    ∧ (l.backward (l.forward X) X).n1 = X.n1
    ∧ (l.backward (l.forward X) X).n2 = X.n2
    ∧ (l.backward (l.forward X) X).n3 = X.n3
    ∧ (l.backward (l.forward X) X).data b c i j = X.data b c i j := by
  refine ⟨rfl, rfl, rfl, rfl, rfl, rfl, ?_⟩
  have hrem : (c * X.n2 + i) * X.n3 + j < X.n1 * X.n2 * X.n3 :=
    encode_lt (c * X.n2 + i) j (X.n1 * X.n2) X.n3 (encode_lt c i X.n1 X.n2 hc hi) hj
  simp only [Flatten.backward, Flatten.forward, Tensor2.reshape4, mkT4,
    Tensor4.reshapeRows, Tensor2.flat]
  rw [show ((b * X.n1 + c) * X.n2 + i) * X.n3 + j
      = b * (X.n1 * X.n2 * X.n3) + ((c * X.n2 + i) * X.n3 + j) by ring]
  rw [encode_div _ _ _ hrem, encode_mod _ _ _ hrem]
  rw [show b * (X.n1 * X.n2 * X.n3) + ((c * X.n2 + i) * X.n3 + j)
      = ((b * X.n1 + c) * X.n2 + i) * X.n3 + j by ring]
  exact X.flat_encode b c i j hc hi hj

/-- C7 witness: the flatten round trip evaluated on a concrete 1×1×1×2 tensor. -/
theorem c7_flatten_witness :
    (0 : Nat) < 1 ∧ (0 : Nat) < 1 ∧ (1 : Nat) < 2
    ∧ ((Flatten.init "flatten" none).backward
        ((Flatten.init "flatten" none).forward (Tensor4.mk 1 1 1 2 (fun _ _ _ j => (j : ℚ) + 7)))
        (Tensor4.mk 1 1 1 2 (fun _ _ _ j => (j : ℚ) + 7))).data 0 0 0 1
      = (Tensor4.mk 1 1 1 2 (fun _ _ _ j => (j : ℚ) + 7)).data 0 0 0 1 :=
  ⟨by decide, by decide, by decide,
   (c7_flatten_roundtrip (Flatten.init "flatten" none)
     (Tensor4.mk 1 1 1 2 (fun _ _ _ j => (j : ℚ) + 7)) 0 0 0 1
     (by decide) (by decide) (by decide)).2.2.2.2.2.2⟩

/-- Reading a flattened rank-2 array at an encoded index against a stated
second extent. -/
theorem Tensor2.flat_encode2 (M : Tensor2) (a rem N : Nat) (hN : M.n1 = N)
    (hrem : rem < N) : M.flat (a * N + rem) = M.data a rem := by
  simp only [Tensor2.flat, hN]
  rw [encode_div _ _ _ hrem, encode_mod _ _ _ hrem]

/-- An `img2col` column entry at encoded row and column indices is the padded
input at the corresponding window position. -/
theorem conv_cols_entry (X : Tensor4) (kh kw pad stride b ic ki kj oh ow : Nat)
    (hb : b < X.n0) (hki : ki < kh) (hkj : kj < kw)
    (how : ow < outSize X.n3 kw pad stride) :
    (img2col X kh kw pad stride).data ((ic * kh + ki) * kw + kj)
      ((oh * outSize X.n3 kw pad stride + ow) * X.n0 + b)
      = pad4 X pad b ic (oh * stride + ki) (ow * stride + kj) := by
  simp only [img2col]
  rw [encode_mod _ _ _ hkj, encode_div _ _ _ hkj]
  rw [encode_mod _ _ _ hki, encode_div _ _ _ hki]
  rw [encode_mod _ _ _ hb, encode_div _ _ _ hb]
  rw [encode_mod _ _ _ how, encode_div _ _ _ how]

/-- A reshaped-weights row entry at an encoded column index is the original
4-D weight entry. -/
theorem conv_weights_rows_entry (W : Tensor4) (outC inC kh kw oc ic ki kj : Nat)
    (h1 : W.n1 = inC) (h2 : W.n2 = kh) (h3 : W.n3 = kw)
    (hic : ic < inC) (hki : ki < kh) (hkj : kj < kw) :
    (W.reshape2 outC (inC * kh * kw)).data oc ((ic * kh + ki) * kw + kj)
      = W.data oc ic ki kj := by
  subst h1
  subst h2
  subst h3
  simp only [Tensor4.reshape2]
  rw [show oc * (W.n1 * W.n2 * W.n3) + ((ic * W.n2 + ki) * W.n3 + kj)
      = ((oc * W.n1 + ic) * W.n2 + ki) * W.n3 + kj from by ring]
  exact W.flat_encode oc ic ki kj hic hki hkj

/-- C3: Convolution.forward returns a tensor of shape
`(batch, out_channel, out_height, out_width)` with
`out_height = (in_height + 2*pad - kernel_h) / stride + 1` (symmetrically for
width), equal to the reshaped-weights times im2col-matrix product plus the
per-output-channel bias, reshaped and transposed into that layout; spelling
the composite out, each output entry is the direct convolution sum over the
padded input window. -/
theorem c3_convolution_forward (l : Convolution) (X : Tensor4) (b oc oh ow : Nat)
    (hw1 : l.weights.n1 = l.in_channel) (hw2 : l.weights.n2 = l.kernel_h)
    (hw3 : l.weights.n3 = l.kernel_w)
    (hb : b < X.n0) (hoh : oh < outSize X.n2 l.kernel_h l.pad l.stride)
    (how : ow < outSize X.n3 l.kernel_w l.pad l.stride) :
    (l.forward X).n0 = X.n0
    ∧ (l.forward X).n1 = l.out_channel
    ∧ (l.forward X).n2 = outSize X.n2 l.kernel_h l.pad l.stride
    ∧ (l.forward X).n3 = outSize X.n3 l.kernel_w l.pad l.stride
    ∧ (l.forward X).data b oc oh ow
        = (∑ r in Finset.range (l.in_channel * l.kernel_h * l.kernel_w),
            (l.weights.reshape2 l.out_channel (l.in_channel * l.kernel_h * l.kernel_w)).data oc r
              * (img2col X l.kernel_h l.kernel_w l.pad l.stride).data r
                  ((oh * outSize X.n3 l.kernel_w l.pad l.stride + ow) * X.n0 + b))
          + l.bias.data oc
    ∧ (l.forward X).data b oc oh ow
        = (∑ ic in Finset.range l.in_channel, ∑ ki in Finset.range l.kernel_h,
            ∑ kj in Finset.range l.kernel_w,
              l.weights.data oc ic ki kj
                * pad4 X l.pad b ic (oh * l.stride + ki) (ow * l.stride + kj))
          + l.bias.data oc := by
  have hrem : (oh * outSize X.n3 l.kernel_w l.pad l.stride + ow) * X.n0 + b
      < outSize X.n2 l.kernel_h l.pad l.stride * outSize X.n3 l.kernel_w l.pad l.stride * X.n0 :=
    encode_lt _ b _ X.n0
      (encode_lt oh ow (outSize X.n2 l.kernel_h l.pad l.stride)
        (outSize X.n3 l.kernel_w l.pad l.stride) hoh how) hb
  have main1 : (l.forward X).data b oc oh ow
      = (∑ r in Finset.range (l.in_channel * l.kernel_h * l.kernel_w),
          (l.weights.reshape2 l.out_channel (l.in_channel * l.kernel_h * l.kernel_w)).data oc r
            * (img2col X l.kernel_h l.kernel_w l.pad l.stride).data r
                ((oh * outSize X.n3 l.kernel_w l.pad l.stride + ow) * X.n0 + b))
        + l.bias.data oc := by
    simp only [Convolution.forward, Tensor4.transpose3012, Tensor2.reshape4, mkT4]
    rw [show ((oc * outSize X.n2 l.kernel_h l.pad l.stride + oh)
            * outSize X.n3 l.kernel_w l.pad l.stride + ow) * X.n0 + b
        = oc * (outSize X.n2 l.kernel_h l.pad l.stride
            * outSize X.n3 l.kernel_w l.pad l.stride * X.n0)
          + ((oh * outSize X.n3 l.kernel_w l.pad l.stride + ow) * X.n0 + b) from by ring]
    rw [Tensor2.flat_encode2 _ oc _
      (outSize X.n2 l.kernel_h l.pad l.stride * outSize X.n3 l.kernel_w l.pad l.stride * X.n0)
      rfl hrem]
    rfl
  refine ⟨rfl, rfl, rfl, rfl, main1, ?_⟩
  rw [main1]
  congr 1
  rw [sum_range_mul, sum_range_mul]
  refine Finset.sum_congr rfl (fun ic hic => Finset.sum_congr rfl
    (fun ki hki => Finset.sum_congr rfl (fun kj hkj => ?_)))
  rw [Finset.mem_range] at hic hki hkj
  rw [conv_weights_rows_entry l.weights l.out_channel l.in_channel l.kernel_h l.kernel_w
    oc ic ki kj hw1 hw2 hw3 hic hki hkj]
  rw [conv_cols_entry X l.kernel_h l.kernel_w l.pad l.stride b ic ki kj oh ow hb hki hkj how]

/-- C3 witness: the convolution forward theorem applied to a concrete layer
and input. -/
theorem c3_convolution_witness :
    convExample.weights.n1 = convExample.in_channel
    ∧ (convExample.forward convExampleInput).data 0 0 0 0
      = (∑ ic in Finset.range convExample.in_channel,
          ∑ ki in Finset.range convExample.kernel_h,
          ∑ kj in Finset.range convExample.kernel_w,
            convExample.weights.data 0 ic ki kj
              * pad4 convExampleInput convExample.pad 0 ic (0 * convExample.stride + ki)
                  (0 * convExample.stride + kj))
        + convExample.bias.data 0 :=
  ⟨rfl, (c3_convolution_forward convExample convExampleInput 0 0 0 0 rfl rfl rfl
    (by decide) (by decide) (by decide)).2.2.2.2.2⟩

/-- C6: with a pool_type that is neither 'max' nor 'avg', both
Pooling.forward and Pooling.backward signal the configuration error
immediately, independently of the input (the error value does not depend on
the tensors); with pool_type 'max' or 'avg' neither call produces this
error. -/
theorem c6_pooling_pool_type_error (l : Pooling) (in_grads inputs : Tensor4) :
    (l.pool_type ≠ "max" → l.pool_type ≠ "avg" →
      l.forward inputs = Except.error "Pool type not supported"
      ∧ l.backward in_grads inputs = Except.error "Pool type is not supported")
    ∧ (l.pool_type = "max" ∨ l.pool_type = "avg" →
      (l.forward inputs).isOk ∧ (l.backward in_grads inputs).isOk) := by
  constructor
  · intro h1 h2
    constructor
    · simp [Pooling.forward, h1, h2]
    · simp [Pooling.backward, h1, h2]
  · rintro (h | h) <;>
      simp [Pooling.forward, Pooling.backward, h, Except.isOk, Except.toBool]

/-- C6 witness: a pooling layer configured with pool type 'foo' errors on
forward, while a 'max' layer succeeds. -/
theorem c6_pooling_witness :
    ¬ ("foo" = "max") ∧ ¬ ("foo" = "avg")
    ∧ (Pooling.init "foo" 2 2 2 0 "pooling").forward
        (Tensor4.mk 1 1 2 2 (fun _ _ _ _ => 0))
      = Except.error "Pool type not supported"
    ∧ ((Pooling.init "max" 2 2 2 0 "pooling").forward
        (Tensor4.mk 1 1 2 2 (fun _ _ _ _ => 0))).isOk :=
  ⟨by decide, by decide,
   ((c6_pooling_pool_type_error (Pooling.init "foo" 2 2 2 0 "pooling")
      (Tensor4.mk 1 1 2 2 (fun _ _ _ _ => 0))
      (Tensor4.mk 1 1 2 2 (fun _ _ _ _ => 0))).1 (by decide) (by decide)).1,
   ((c6_pooling_pool_type_error (Pooling.init "max" 2 2 2 0 "pooling")
      (Tensor4.mk 1 1 2 2 (fun _ _ _ _ => 0))
      (Tensor4.mk 1 1 2 2 (fun _ _ _ _ => 0))).2 (Or.inl (by decide))).1⟩

/-- Anything bounded by the seed or contained in the list is bounded by the
`max` fold over the list. -/
theorem foldl_max_le (l : List ℚ) (a x : ℚ) (h : x ≤ a ∨ x ∈ l) :
    x ≤ l.foldl max a := by
  induction l generalizing a with
  | nil =>
    rcases h with h | h
    · simpa using h
    · simp at h
  | cons y t ih =>
    simp only [List.foldl_cons]
    rcases h with h | h
    · exact ih (max a y) (Or.inl (le_trans h (le_max_left a y)))
    · rcases List.mem_cons.mp h with h | h
      · exact ih (max a y) (Or.inl (h ▸ le_max_right a y))
      · exact ih (max a y) (Or.inr h)

/-- The `max` fold over a list is the seed or one of the list entries. -/
theorem foldl_max_mem (l : List ℚ) (a : ℚ) :
    l.foldl max a = a ∨ l.foldl max a ∈ l := by
  induction l generalizing a with
  | nil => exact Or.inl rfl
  | cons y t ih =>
    simp only [List.foldl_cons]
    rcases ih (max a y) with h | h
    · rcases max_choice a y with h2 | h2
      · exact Or.inl (by rw [h, h2])
      · exact Or.inr (by rw [h, h2]; exact List.mem_cons_self y t)
    · exact Or.inr (List.mem_cons_of_mem y h)

/-- A pooling window stays inside the image when the output coordinate is in
range and the window fits. -/
theorem window_in_range (H ph s oh ki : Nat) (hph : ph ≤ H) (hki : ki < ph)
    (hoh : oh < (H - ph) / s + 1) : oh * s + ki < H := by
  have h1 : oh ≤ (H - ph) / s := by omega
  have h2 : oh * s ≤ (H - ph) / s * s := Nat.mul_le_mul_right s h1
  have h3 : (H - ph) / s * s ≤ H - ph := Nat.div_mul_le_self _ _
  omega

/-- An entry of the pooling column matrix — built from the input reshaped to
`(batch*channel, 1, H, W)` with `pad = 0` — is the input value at the window
position encoded by the row and column indices. -/
theorem pool_cols_entry (X : Tensor4) (ph pw stride b c ki kj oh ow : Nat)
    (hb : b < X.n0) (hc : c < X.n1) (hki : ki < ph) (hkj : kj < pw)
    (hih : oh * stride + ki < X.n2) (hiw : ow * stride + kj < X.n3)
    (how : ow < (X.n3 - pw) / stride + 1) :
    (img2col (X.reshape44 (X.n0 * X.n1) 1 X.n2 X.n3) ph pw 0 stride).data
      (ki * pw + kj)
      ((oh * ((X.n3 - pw) / stride + 1) + ow) * (X.n0 * X.n1) + (b * X.n1 + c))
      = X.data b c (oh * stride + ki) (ow * stride + kj) := by
  have hbc : b * X.n1 + c < X.n0 * X.n1 := encode_lt b c X.n0 X.n1 hb hc
  simp only [img2col, Tensor4.reshape44, mkT4, outSize, Nat.mul_zero, Nat.add_zero]
  rw [encode_mod _ _ _ hkj, encode_div _ _ _ hkj]
  rw [Nat.mod_eq_of_lt hki, Nat.div_eq_of_lt hki]
  rw [encode_mod _ _ _ hbc, encode_div _ _ _ hbc]
  rw [encode_mod _ _ _ how, encode_div _ _ _ how]
  simp only [pad4, Nat.sub_zero, Nat.add_zero]
  rw [if_pos (⟨Nat.zero_le _, by omega, Nat.zero_le _, by omega⟩ :
      0 ≤ oh * stride + ki ∧ oh * stride + ki < X.n2 ∧
      0 ≤ ow * stride + kj ∧ ow * stride + kj < X.n3)]
  simp only [Nat.mul_one, Nat.add_zero]
  exact X.flat_encode b c _ _ hc hih hiw

/-- The per-column maximum of the pooling column matrix is attained at some
window position and bounds every window value. -/
theorem pool_colmax_spec (X : Tensor4) (ph pw stride b c oh ow : Nat)
    (hph : 0 < ph) (hpw : 0 < pw) (hphH : ph ≤ X.n2) (hpwW : pw ≤ X.n3)
    (hb : b < X.n0) (hc : c < X.n1)
    (hoh : oh < (X.n2 - ph) / stride + 1) (how : ow < (X.n3 - pw) / stride + 1) :
    (∃ ki kj, ki < ph ∧ kj < pw ∧
      colMax (img2col (X.reshape44 (X.n0 * X.n1) 1 X.n2 X.n3) ph pw 0 stride) ((oh * ((X.n3 - pw) / stride + 1) + ow) * (X.n0 * X.n1) + (b * X.n1 + c)) = X.data b c (oh * stride + ki) (ow * stride + kj))
    ∧ (∀ ki kj, ki < ph → kj < pw →
      X.data b c (oh * stride + ki) (ow * stride + kj) ≤ colMax (img2col (X.reshape44 (X.n0 * X.n1) 1 X.n2 X.n3) ph pw 0 stride) ((oh * ((X.n3 - pw) / stride + 1) + ow) * (X.n0 * X.n1) + (b * X.n1 + c))) := by
  have hn0 : (img2col (X.reshape44 (X.n0 * X.n1) 1 X.n2 X.n3) ph pw 0 stride).n0 = ph * pw := by
    simp [img2col, Tensor4.reshape44, mkT4]
  unfold colMax
  constructor
  · rcases foldl_max_mem ((List.range (img2col (X.reshape44 (X.n0 * X.n1) 1 X.n2 X.n3) ph pw 0 stride).n0).map (fun r => (img2col (X.reshape44 (X.n0 * X.n1) 1 X.n2 X.n3) ph pw 0 stride).data r ((oh * ((X.n3 - pw) / stride + 1) + ow) * (X.n0 * X.n1) + (b * X.n1 + c))))
        ((img2col (X.reshape44 (X.n0 * X.n1) 1 X.n2 X.n3) ph pw 0 stride).data 0 ((oh * ((X.n3 - pw) / stride + 1) + ow) * (X.n0 * X.n1) + (b * X.n1 + c))) with hm | hm
    · have e00 := pool_cols_entry X ph pw stride b c 0 0 oh ow hb hc hph hpw
        (window_in_range X.n2 ph stride oh 0 hphH hph hoh)
        (window_in_range X.n3 pw stride ow 0 hpwW hpw how) how
      have e00b : (img2col (X.reshape44 (X.n0 * X.n1) 1 X.n2 X.n3) ph pw 0 stride).data 0 ((oh * ((X.n3 - pw) / stride + 1) + ow) * (X.n0 * X.n1) + (b * X.n1 + c)) = X.data b c (oh * stride + 0) (ow * stride + 0) := by
        simpa only [Nat.zero_mul, Nat.zero_add] using e00
      exact ⟨0, 0, hph, hpw, hm.trans e00b⟩
    · rcases List.mem_map.mp hm with ⟨r, hrmem, hr⟩
      have hrlt : r < ph * pw := by
        have := List.mem_range.mp hrmem
        rwa [hn0] at this
      have hki : r / pw < ph := (Nat.div_lt_iff_lt_mul hpw).mpr hrlt
      have hkj : r % pw < pw := Nat.mod_lt _ hpw
      have hdec : r / pw * pw + r % pw = r := Nat.div_add_mod' r pw
      have e := pool_cols_entry X ph pw stride b c (r / pw) (r % pw) oh ow hb hc hki hkj
        (window_in_range X.n2 ph stride oh (r / pw) hphH hki hoh)
        (window_in_range X.n3 pw stride ow (r % pw) hpwW hkj how) how
      rw [hdec] at e
      exact ⟨r / pw, r % pw, hki, hkj, hr.symm.trans e⟩
  · intro ki kj hki hkj
    have e := pool_cols_entry X ph pw stride b c ki kj oh ow hb hc hki hkj
      (window_in_range X.n2 ph stride oh ki hphH hki hoh)
      (window_in_range X.n3 pw stride ow kj hpwW hkj how) how
    rw [← e]
    apply foldl_max_le
    right
    exact List.mem_map.mpr ⟨ki * pw + kj,
      List.mem_range.mpr (by rw [hn0]; exact encode_lt ki kj ph pw hki hkj), rfl⟩

/-- The per-column mean of the pooling column matrix is the mean of the
window values. -/
theorem pool_colavg_spec (X : Tensor4) (ph pw stride b c oh ow : Nat)
    (hph : 0 < ph) (hpw : 0 < pw) (hphH : ph ≤ X.n2) (hpwW : pw ≤ X.n3)
    (hb : b < X.n0) (hc : c < X.n1)
    (hoh : oh < (X.n2 - ph) / stride + 1) (how : ow < (X.n3 - pw) / stride + 1) :
    (∑ r in Finset.range (img2col (X.reshape44 (X.n0 * X.n1) 1 X.n2 X.n3) ph pw 0 stride).n0, (img2col (X.reshape44 (X.n0 * X.n1) 1 X.n2 X.n3) ph pw 0 stride).data r ((oh * ((X.n3 - pw) / stride + 1) + ow) * (X.n0 * X.n1) + (b * X.n1 + c))) / ((img2col (X.reshape44 (X.n0 * X.n1) 1 X.n2 X.n3) ph pw 0 stride).n0 : ℚ)
      = (∑ ki in Finset.range ph, ∑ kj in Finset.range pw,
          X.data b c (oh * stride + ki) (ow * stride + kj)) / ((ph * pw : Nat) : ℚ) := by
  have hn0 : (img2col (X.reshape44 (X.n0 * X.n1) 1 X.n2 X.n3) ph pw 0 stride).n0 = ph * pw := by
    simp [img2col, Tensor4.reshape44, mkT4]
  rw [hn0, sum_range_mul]
  congr 1
  refine Finset.sum_congr rfl (fun ki hki => Finset.sum_congr rfl (fun kj hkj => ?_))
  rw [Finset.mem_range] at hki hkj
  exact pool_cols_entry X ph pw stride b c ki kj oh ow hb hc hki hkj
    (window_in_range X.n2 ph stride oh ki hphH hki hoh)
    (window_in_range X.n3 pw stride ow kj hpwW hkj how) how

/-- C5: for a Pooling layer with pad = 0, forward returns a tensor of shape
`(batch, in_channel, (H - pool_h)/stride + 1, (W - pool_w)/stride + 1)`,
computed by reshaping the input to `(batch*in_channel, 1, H, W)`, running the
Column Transform with the layer's pad and stride, and reducing each column
with the configured pooling kernel: for 'max' each output entry is the
maximum of its window (attained at some window position and bounding all of
them), for 'avg' it is the window mean. -/
theorem c5_pooling_forward (l : Pooling) (X : Tensor4) (b c oh ow : Nat)
    (hpad : l.pad = 0) (hph : 0 < l.pool_height) (hpw : 0 < l.pool_width)
    (hphH : l.pool_height ≤ X.n2) (hpwW : l.pool_width ≤ X.n3)
    (hb : b < X.n0) (hc : c < X.n1)
    (hoh : oh < (X.n2 - l.pool_height) / l.stride + 1)
    (how : ow < (X.n3 - l.pool_width) / l.stride + 1) :
    (l.pool_type = "max" →
      l.forward X = Except.ok (l.forwardWith X maxpool)
      ∧ (l.forwardWith X maxpool).1.n0 = X.n0
      ∧ (l.forwardWith X maxpool).1.n1 = X.n1
      ∧ (l.forwardWith X maxpool).1.n2 = (X.n2 - l.pool_height) / l.stride + 1
      ∧ (l.forwardWith X maxpool).1.n3 = (X.n3 - l.pool_width) / l.stride + 1
      ∧ (∃ ki kj, ki < l.pool_height ∧ kj < l.pool_width ∧
          (l.forwardWith X maxpool).1.data b c oh ow
            = X.data b c (oh * l.stride + ki) (ow * l.stride + kj))
      ∧ (∀ ki kj, ki < l.pool_height → kj < l.pool_width →
          X.data b c (oh * l.stride + ki) (ow * l.stride + kj)
            ≤ (l.forwardWith X maxpool).1.data b c oh ow))
    ∧ (l.pool_type = "avg" →
      l.forward X = Except.ok (l.forwardWith X avgpool)
      ∧ (l.forwardWith X avgpool).1.n0 = X.n0
      ∧ (l.forwardWith X avgpool).1.n1 = X.n1
      ∧ (l.forwardWith X avgpool).1.n2 = (X.n2 - l.pool_height) / l.stride + 1
      ∧ (l.forwardWith X avgpool).1.n3 = (X.n3 - l.pool_width) / l.stride + 1
      ∧ (l.forwardWith X avgpool).1.data b c oh ow
          = (∑ ki in Finset.range l.pool_height, ∑ kj in Finset.range l.pool_width,
              X.data b c (oh * l.stride + ki) (ow * l.stride + kj))
            / ((l.pool_height * l.pool_width : Nat) : ℚ)) := by
  constructor
  · intro hmax
    have hdata : (l.forwardWith X maxpool).1.data b c oh ow
        = colMax (img2col (X.reshape44 (X.n0 * X.n1) 1 X.n2 X.n3)
            l.pool_height l.pool_width l.pad l.stride)
          (((oh * ((X.n3 - l.pool_width) / l.stride + 1) + ow) * X.n0 + b) * X.n1 + c) := rfl
    rw [hpad] at hdata
    simp only [show ((oh * ((X.n3 - l.pool_width) / l.stride + 1) + ow) * X.n0 + b) * X.n1 + c
        = (oh * ((X.n3 - l.pool_width) / l.stride + 1) + ow) * (X.n0 * X.n1)
          + (b * X.n1 + c) from by ring] at hdata
    obtain ⟨hex, hub⟩ := pool_colmax_spec X l.pool_height l.pool_width l.stride b c oh ow
      hph hpw hphH hpwW hb hc hoh how
    refine ⟨by simp [Pooling.forward, hmax], rfl, rfl, rfl, rfl, ?_, ?_⟩
    · obtain ⟨ki, kj, h1, h2, h3⟩ := hex
      exact ⟨ki, kj, h1, h2, by rw [hdata, h3]⟩
    · intro ki kj h1 h2
      rw [hdata]
      exact hub ki kj h1 h2
  · intro havg
    have hdata : (l.forwardWith X avgpool).1.data b c oh ow
        = (∑ r in Finset.range (img2col (X.reshape44 (X.n0 * X.n1) 1 X.n2 X.n3)
              l.pool_height l.pool_width l.pad l.stride).n0,
            (img2col (X.reshape44 (X.n0 * X.n1) 1 X.n2 X.n3)
              l.pool_height l.pool_width l.pad l.stride).data r
              (((oh * ((X.n3 - l.pool_width) / l.stride + 1) + ow) * X.n0 + b) * X.n1 + c))
          / ((img2col (X.reshape44 (X.n0 * X.n1) 1 X.n2 X.n3)
              l.pool_height l.pool_width l.pad l.stride).n0 : ℚ) := rfl
    rw [hpad] at hdata
    simp only [show ((oh * ((X.n3 - l.pool_width) / l.stride + 1) + ow) * X.n0 + b) * X.n1 + c
        = (oh * ((X.n3 - l.pool_width) / l.stride + 1) + ow) * (X.n0 * X.n1)
          + (b * X.n1 + c) from by ring] at hdata
    refine ⟨by simp [Pooling.forward, havg], rfl, rfl, rfl, rfl, ?_⟩
    rw [hdata]
    exact pool_colavg_spec X l.pool_height l.pool_width l.stride b c oh ow
      hph hpw hphH hpwW hb hc hoh how

/-- C5 witness: the pooling forward theorem applied to a concrete max-pooling
layer over a 1×1×1×1 input. -/
theorem c5_pooling_witness :
    (Pooling.init "max" 1 1 1 0 "pooling").pad = 0
    ∧ (Tensor4.mk 1 1 1 1 (fun _ _ _ _ => (4 : ℚ))).data 0 0 (0 * 1 + 0) (0 * 1 + 0)
      ≤ ((Pooling.init "max" 1 1 1 0 "pooling").forwardWith
          (Tensor4.mk 1 1 1 1 (fun _ _ _ _ => (4 : ℚ))) maxpool).1.data 0 0 0 0 :=
  ⟨rfl,
   ((c5_pooling_forward (Pooling.init "max" 1 1 1 0 "pooling")
      (Tensor4.mk 1 1 1 1 (fun _ _ _ _ => (4 : ℚ))) 0 0 0 0 rfl
      (by decide) (by decide) (by decide) (by decide) (by decide) (by decide)
      (by decide) (by decide)).1 rfl).2.2.2.2.2.2 0 0 (by decide) (by decide)⟩

/-- C8: a Dropout layer in training mode with a fixed (non-None) seed
produces identical masks on two successive forward calls over same-shape
inputs (the second call re-seeds the generator, so the advanced generator
state is irrelevant); every mask entry is either `1/(1-ratio)` or `0`; and
when the inputs are equal the outputs are equal too. -/
theorem c8_dropout_determinism (l : Dropout) (g : NpRandom) (X1 X2 : Tensor2) (s : Nat)
    (ht : l.training = true) (hs : l.seed = some s)
    (h0 : X1.n0 = X2.n0) (h1 : X1.n1 = X2.n1) :
    ((l.forward g X1).2.1.mask.n0
        = (((l.forward g X1).2.1).forward ((l.forward g X1).2.2) X2).2.1.mask.n0
      ∧ (l.forward g X1).2.1.mask.n1
        = (((l.forward g X1).2.1).forward ((l.forward g X1).2.2) X2).2.1.mask.n1
      ∧ ∀ i j, (l.forward g X1).2.1.mask.data i j
        = (((l.forward g X1).2.1).forward ((l.forward g X1).2.2) X2).2.1.mask.data i j)
    ∧ (∀ i j, (l.forward g X1).2.1.mask.data i j = 0
        ∨ (l.forward g X1).2.1.mask.data i j = 1 / (1 - l.ratio))
    ∧ ((∀ i j, X1.data i j = X2.data i j) →
        ∀ i j, ((l.forward g X1).1).data i j
          = ((((l.forward g X1).2.1).forward ((l.forward g X1).2.2) X2).1).data i j) := by
  refine ⟨⟨?_, ?_, ?_⟩, ?_, ?_⟩
  · simp [Dropout.forward, ht, hs, h0]
  · simp [Dropout.forward, ht, hs, h1]
  · intro i j
    simp [Dropout.forward, ht, hs, h1]
  · intro i j
    simp only [Dropout.forward, ht, hs, if_true]
    by_cases hbern : (NpRandom.seed s).bern (i * X1.n1 + j)
    · right
      simp [hbern]
    · left
      simp [hbern]
  · intro hX i j
    simp [Dropout.forward, ht, hs, h1, hX i j]

/-- C8 witness: the dropout determinism theorem applied to a concrete seeded
layer and input. -/
theorem c8_dropout_witness :
    (Dropout.init (1 / 2) "dropout" (some 7)).training = true
    ∧ ∀ i j,
      ((Dropout.init (1 / 2) "dropout" (some 7)).forward ⟨0⟩
          (Tensor2.mk 1 1 (fun _ _ => 3))).2.1.mask.data i j
        = ((((Dropout.init (1 / 2) "dropout" (some 7)).forward ⟨0⟩
              (Tensor2.mk 1 1 (fun _ _ => 3))).2.1).forward
            (((Dropout.init (1 / 2) "dropout" (some 7)).forward ⟨0⟩
              (Tensor2.mk 1 1 (fun _ _ => 3))).2.2)
            (Tensor2.mk 1 1 (fun _ _ => 3))).2.1.mask.data i j :=
  ⟨rfl,
   (c8_dropout_determinism (Dropout.init (1 / 2) "dropout" (some 7)) ⟨0⟩
     (Tensor2.mk 1 1 (fun _ _ => 3)) (Tensor2.mk 1 1 (fun _ _ => 3)) 7
     rfl rfl rfl rfl).1.2.2⟩

/-- One `FCLayer.update` step never touches the gradient slots, name, or
flags. -/
theorem fc_update_step_fields (l : FCLayer) (kv : String × (Tensor2 ⊕ Tensor1)) :
    (l.update [kv]).w_grad = l.w_grad ∧ (l.update [kv]).b_grad = l.b_grad
    ∧ (l.update [kv]).name = l.name ∧ (l.update [kv]).trainable = l.trainable
    ∧ (l.update [kv]).training = l.training := by
  rcases kv with ⟨k, v⟩
  by_cases h : strContains k "weights" <;> rcases v with w | bv <;>
    simp [FCLayer.update, h]

/-- `FCLayer.update` over any parameter list never touches the gradient
slots, name, or flags. -/
theorem fc_update_fields (l : FCLayer) (ps : List (String × (Tensor2 ⊕ Tensor1))) :
    (l.update ps).w_grad = l.w_grad ∧ (l.update ps).b_grad = l.b_grad
    ∧ (l.update ps).name = l.name ∧ (l.update ps).trainable = l.trainable
    ∧ (l.update ps).training = l.training := by
  induction ps generalizing l with
  | nil => exact ⟨rfl, rfl, rfl, rfl, rfl⟩
  | cons kv t ih =>
    have hcons : l.update (kv :: t) = (l.update [kv]).update t := by
      simp [FCLayer.update]
    rw [hcons]
    obtain ⟨h1, h2, h3, h4, h5⟩ := ih (l.update [kv])
    obtain ⟨g1, g2, g3, g4, g5⟩ := fc_update_step_fields l kv
    exact ⟨h1.trans g1, h2.trans g2, h3.trans g3, h4.trans g4, h5.trans g5⟩

/-- One `Convolution.update` step never touches the hyper-parameters,
gradient slots, name, or flags. -/
theorem conv_update_step_fields (l : Convolution) (kv : String × (Tensor4 ⊕ Tensor1)) :
    (l.update [kv]).kernel_h = l.kernel_h ∧ (l.update [kv]).kernel_w = l.kernel_w
    ∧ (l.update [kv]).pad = l.pad ∧ (l.update [kv]).stride = l.stride
    ∧ (l.update [kv]).in_channel = l.in_channel ∧ (l.update [kv]).out_channel = l.out_channel
    ∧ (l.update [kv]).w_grad = l.w_grad ∧ (l.update [kv]).b_grad = l.b_grad
    ∧ (l.update [kv]).name = l.name ∧ (l.update [kv]).trainable = l.trainable
    ∧ (l.update [kv]).training = l.training := by
  rcases kv with ⟨k, v⟩
  by_cases h : strContains k "weights" <;> rcases v with w | bv <;>
    simp [Convolution.update, h]

/-- `Convolution.update` over any parameter list never touches the
hyper-parameters, gradient slots, name, or flags. -/
theorem conv_update_fields (l : Convolution) (ps : List (String × (Tensor4 ⊕ Tensor1))) :
    (l.update ps).kernel_h = l.kernel_h ∧ (l.update ps).kernel_w = l.kernel_w
    ∧ (l.update ps).pad = l.pad ∧ (l.update ps).stride = l.stride
    ∧ (l.update ps).in_channel = l.in_channel ∧ (l.update ps).out_channel = l.out_channel
    ∧ (l.update ps).w_grad = l.w_grad ∧ (l.update ps).b_grad = l.b_grad
    ∧ (l.update ps).name = l.name ∧ (l.update ps).trainable = l.trainable
    ∧ (l.update ps).training = l.training := by
  induction ps generalizing l with
  | nil =>
    exact ⟨rfl, rfl, rfl, rfl, rfl, rfl, rfl, rfl, rfl, rfl, rfl⟩
  | cons kv t ih =>
    have hcons : l.update (kv :: t) = (l.update [kv]).update t := by
      simp [Convolution.update]
    rw [hcons]
    obtain ⟨h1, h2, h3, h4, h5, h6, h7, h8, h9, h10, h11⟩ := ih (l.update [kv])
    obtain ⟨g1, g2, g3, g4, g5, g6, g7, g8, g9, g10, g11⟩ := conv_update_step_fields l kv
    exact ⟨h1.trans g1, h2.trans g2, h3.trans g3, h4.trans g4, h5.trans g5, h6.trans g6,
      h7.trans g7, h8.trans g8, h9.trans g9, h10.trans g10, h11.trans g11⟩

/-- C9 counterexample: the key `"0:weights/bias"` has role `bias`, but
because the whole key contains the substring `'weights'`, the update loop
takes the weights branch and the bias tensor is left untouched — the claim
would require the bias to become the supplied value 1. -/
theorem c9_update_counterexample :
    strContains "0:weights/bias" "weights" = true
    ∧ ¬ ((fcPlain.update [("0:weights/bias", Sum.inr (Tensor1.mk 2 (fun _ => 1)))]).bias.data 0
        = (Tensor1.mk 2 (fun _ => 1)).data 0) := by
  constructor
  · rfl
  · intro h
    have h2 : (0 : ℚ) = 1 := h
    norm_num at h2

/-- C9 (amended): update assigns each supplied value to the weights tensor
when its key contains the substring `'weights'` and to the bias tensor
otherwise, and changes nothing else; in particular, for the canonical
optimizer mapping — one weights-role key containing `'weights'` and one
bias-role key not containing it — exactly the tensor named by each key's role
is replaced.  For the non-trainable layers (ReLU, Pooling, Dropout, Flatten)
update is a no-op. -/
theorem c9_update_replaces_params :
    (∀ (l : FCLayer) (kw kb : String) (W : Tensor2) (B : Tensor1),
      strContains kw "weights" = true → strContains kb "weights" = false →
      (l.update [(kw, Sum.inl W), (kb, Sum.inr B)]).weights = W
      ∧ (l.update [(kw, Sum.inl W), (kb, Sum.inr B)]).bias = B
      ∧ (l.update [(kw, Sum.inl W), (kb, Sum.inr B)]).w_grad = l.w_grad
      ∧ (l.update [(kw, Sum.inl W), (kb, Sum.inr B)]).b_grad = l.b_grad
      ∧ (l.update [(kw, Sum.inl W), (kb, Sum.inr B)]).name = l.name
      ∧ (l.update [(kw, Sum.inl W), (kb, Sum.inr B)]).trainable = l.trainable
      ∧ (l.update [(kw, Sum.inl W), (kb, Sum.inr B)]).training = l.training)
    ∧ (∀ (l : FCLayer) (ps : List (String × (Tensor2 ⊕ Tensor1))),
      (l.update ps).w_grad = l.w_grad ∧ (l.update ps).b_grad = l.b_grad
      ∧ (l.update ps).name = l.name ∧ (l.update ps).trainable = l.trainable
      ∧ (l.update ps).training = l.training)
    ∧ (∀ (l : Convolution) (kw kb : String) (W : Tensor4) (B : Tensor1),
      strContains kw "weights" = true → strContains kb "weights" = false →
      (l.update [(kw, Sum.inl W), (kb, Sum.inr B)]).weights = W
      ∧ (l.update [(kw, Sum.inl W), (kb, Sum.inr B)]).bias = B)
    ∧ (∀ (l : Convolution) (ps : List (String × (Tensor4 ⊕ Tensor1))),
      (l.update ps).kernel_h = l.kernel_h ∧ (l.update ps).kernel_w = l.kernel_w
      ∧ (l.update ps).pad = l.pad ∧ (l.update ps).stride = l.stride
      ∧ (l.update ps).in_channel = l.in_channel ∧ (l.update ps).out_channel = l.out_channel
      ∧ (l.update ps).w_grad = l.w_grad ∧ (l.update ps).b_grad = l.b_grad
      ∧ (l.update ps).name = l.name ∧ (l.update ps).trainable = l.trainable
      ∧ (l.update ps).training = l.training)
    ∧ (∀ (l : ReLU) (ps : List (String × (Tensor2 ⊕ Tensor1))), l.update ps = l)
    ∧ (∀ (l : Pooling) (ps : List (String × (Tensor2 ⊕ Tensor1))), l.update ps = l)
    ∧ (∀ (l : Dropout) (ps : List (String × (Tensor2 ⊕ Tensor1))), l.update ps = l)
    ∧ (∀ (l : Flatten) (ps : List (String × (Tensor2 ⊕ Tensor1))), l.update ps = l) := by
  refine ⟨?_, fc_update_fields, ?_, conv_update_fields,
    fun l ps => rfl, fun l ps => rfl, fun l ps => rfl, fun l ps => rfl⟩
  · intro l kw kb W B hw hb
    simp [FCLayer.update, hw, hb]
  · intro l kw kb W B hw hb
    simp [Convolution.update, hw, hb]

/-- C9 witness: the update theorem applied to a concrete layer with the
canonical two-key mapping produced by `get_params`. -/
theorem c9_update_witness :
    strContains "0:fclayer/weights" "weights" = true
    ∧ strContains "0:fclayer/bias" "weights" = false
    ∧ (fcPlain.update [("0:fclayer/weights", Sum.inl (Tensor2.mk 3 2 (fun _ _ => 5))),
        ("0:fclayer/bias", Sum.inr (Tensor1.mk 2 (fun _ => 6)))]).weights
      = Tensor2.mk 3 2 (fun _ _ => 5)
    ∧ (fcPlain.update [("0:fclayer/weights", Sum.inl (Tensor2.mk 3 2 (fun _ _ => 5))),
        ("0:fclayer/bias", Sum.inr (Tensor1.mk 2 (fun _ => 6)))]).bias
      = Tensor1.mk 2 (fun _ => 6) :=
  ⟨rfl, rfl,
   (c9_update_replaces_params.1 fcPlain "0:fclayer/weights" "0:fclayer/bias"
     (Tensor2.mk 3 2 (fun _ _ => 5)) (Tensor1.mk 2 (fun _ => 6)) rfl rfl).1,
   (c9_update_replaces_params.1 fcPlain "0:fclayer/weights" "0:fclayer/bias"
     (Tensor2.mk 3 2 (fun _ _ => 5)) (Tensor1.mk 2 (fun _ => 6)) rfl rfl).2.1⟩

/-- C10 counterexample: `set_trainable` is an operation on the instance that
changes the trainable flag — here it flips a freshly constructed FCLayer's
flag from its construction value `true` to `false`. -/
theorem c10_set_trainable_counterexample :
    (FCLayer.init 3 2 "fclayer" (fun _ _ => 0)).trainable = true
    ∧ ((FCLayer.init 3 2 "fclayer" (fun _ _ => 0)).set_trainable false).trainable = false :=
  ⟨rfl, rfl⟩

/-- C10 (amended): the trainable flag is set at construction by the layer
type — true for FCLayer and Convolution, false for ReLU, Pooling, Dropout and
Flatten — and is preserved by forward, backward, update and set_mode; the
`set_trainable` method, however, reassigns it (see the counterexample). -/
theorem c10_trainable_by_type :
    (∀ (i o : Nat) (nm : String) (w : Nat → Nat → ℚ),
      (FCLayer.init i o nm w).trainable = true)
    ∧ (∀ (kh kw pad stride ic oc : Nat) (w : Nat → Nat → Nat → Nat → ℚ) (nm : String),
      (Convolution.init kh kw pad stride ic oc w nm).trainable = true)
    ∧ (∀ nm : String, (ReLU.init nm).trainable = false)
    ∧ (∀ (pt : String) (ph pw s pd : Nat) (nm : String),
      (Pooling.init pt ph pw s pd nm).trainable = false)
    ∧ (∀ (r : ℚ) (nm : String) (sd : Option Nat), (Dropout.init r nm sd).trainable = false)
    ∧ (∀ (nm : String) (sd : Option Nat), (Flatten.init nm sd).trainable = false)
    ∧ (∀ (l : FCLayer) (g x : Tensor2) (m : Bool) (ps : List (String × (Tensor2 ⊕ Tensor1))),
      (l.backward g x).2.trainable = l.trainable
      ∧ (l.update ps).trainable = l.trainable
      ∧ (l.set_mode m).trainable = l.trainable)
    ∧ (∀ (l : Convolution) (g x : Tensor4) (m : Bool)
        (ps : List (String × (Tensor4 ⊕ Tensor1))),
      (l.backward g x).2.trainable = l.trainable
      ∧ (l.update ps).trainable = l.trainable
      ∧ (l.set_mode m).trainable = l.trainable)
    ∧ (∀ (l : ReLU) (m : Bool), (l.set_mode m).trainable = l.trainable)
    ∧ (∀ (l : Pooling) (X : Tensor4) (m : Bool),
      (l.forwardWith X maxpool).2.trainable = l.trainable
      ∧ (l.forwardWith X avgpool).2.trainable = l.trainable
      ∧ (l.set_mode m).trainable = l.trainable)
    ∧ (∀ (l : Dropout) (g0 : NpRandom) (X : Tensor2) (m : Bool),
      (l.forward g0 X).2.1.trainable = l.trainable
      ∧ (l.set_mode m).trainable = l.trainable)
    ∧ (∀ (l : Flatten) (m : Bool), (l.set_mode m).trainable = l.trainable) := by
  refine ⟨fun i o nm w => rfl, fun kh kw pad stride ic oc w nm => rfl, fun nm => rfl,
    fun pt ph pw s pd nm => rfl, fun r nm sd => rfl, fun nm sd => rfl,
    fun l g x m ps => ⟨rfl, (fc_update_fields l ps).2.2.2.1, rfl⟩,
    fun l g x m ps => ⟨rfl, (conv_update_fields l ps).2.2.2.2.2.2.2.2.2.1, rfl⟩,
    fun l m => rfl,
    fun l X m => ⟨rfl, rfl, rfl⟩,
    fun l g0 X m => ⟨?_, rfl⟩,
    fun l m => rfl⟩
  by_cases ht : l.training <;> simp [Dropout.forward, ht]
